import Mathlib

/-!
# Verification of telegraf-operator core logic

A shallow embedding, in Lean 4, of the core logic of the telegraf-operator
admission webhook: configuration assembly (`assembleConf`), the sidecar
decision engine (`shouldAddTelegrafSidecar`, `addSidecars`), the secret
lifecycle protocol (`createOrUpdateSecrets`, `isSecretManagedByTelegrafOperator`),
the namespace reconciler (`updateSecretsInNamespace`) and the debouncing
watcher (`batchChanges`).

Conventions of the embedding:
* Go strings are Lean `String`s; byte-level operations are modelled on
  `String.data` (`List Char`).  All constant strings involved are ASCII, for
  which Go's byte-wise operations and the `List Char` operations coincide
  (UTF-8 byte order equals code-point order).
* Go maps (`map[string]string`, `map[string][]byte`) are association lists;
  lookup takes the first binding.  Well-formed Kubernetes objects have
  duplicate-free keys; theorems that need this state it as a hypothesis.
* External libraries (the TOML parser `toml.Parse`, quantity parsing
  `resource.ParseQuantity`, the Kubernetes API client, the filesystem behind
  `classDataHandler.getData`) are abstracted as explicit parameters /
  oracle fields.  Everything written in the repository itself is translated
  directly.
* Fallible Go functions returning `(T, error)` become `Except GoError T`.
-/

/-- Model of Go `error` values produced by this code base.
`nonFatal` is `nonFatalError` from errors.go (wraps an inner error and a
message); `errorf` is an error built with `fmt.Errorf`; `apiAlreadyExists`
and `apiNotFound` model the Kubernetes API errors tested via
`errors.IsAlreadyExists` (and a failed `Get`). -/
inductive GoError where
  | nonFatal (err : GoError) (message : String)
  | errorf (msg : String)
  | apiAlreadyExists
  | apiNotFound
  deriving DecidableEq, Repr

/-- errors.go `newNonFatalError`. -/
def newNonFatalError (err : GoError) (message : String) : GoError :=
  GoError.nonFatal err message

/-- Is an error the advisory `nonFatalError` type (Go's `err.(*nonFatalError)`
type assertion)? -/
def GoError.isNonFatal : GoError → Bool
  | .nonFatal _ _ => true
  | _ => false

/-! ## Go string primitives

Translations of the Go standard-library string functions the repository
uses, at the `List Char` level so that the kernel can evaluate them. -/

/-- Go `strings.HasPrefix` (hence also the guard of `strings.TrimPrefix`). -/
def goHasPrefix (s pre : String) : Bool :=
  pre.data.isPrefixOf s.data

/-- Go `strings.TrimPrefix`: drop the prefix when present. -/
def goTrimPrefix (s pre : String) : String :=
  if goHasPrefix s pre then ⟨s.data.drop pre.data.length⟩ else s

/-- Go `strings.Contains`, on character lists. -/
def listHasInfix (pat : List Char) : List Char → Bool
  | [] => pat.isEmpty
  | c :: rest => pat.isPrefixOf (c :: rest) || listHasInfix pat rest

/-- Go `strings.Contains`. -/
def goContains (s pat : String) : Bool :=
  listHasInfix pat.data s.data

/-- Go `strings.Split(s, ",")`: split on every comma (`strings.Split` with a
one-character separator).  `List.splitOn` has exactly Go's semantics for a
non-empty single-element separator (in particular `Split("", ",") = [""]`). -/
def goSplitComma (s : String) : List String :=
  (s.data.splitOn ',').map List.asString

/-- Go `strings.ReplaceAll(s, old, new)` for a non-empty `old`: scan left to
right, replacing each non-overlapping occurrence and continuing after the
replacement.  (The repository only calls it with the fixed non-empty pattern
`"[global_tags]\n"`.)  The scan consumes one character per step; after a
match, `skip` counts the remaining matched characters still to be consumed,
so the recursion is structural and the kernel can evaluate it. -/
def goRAAux (pat rep : List Char) : Nat → List Char → List Char
  | _, [] => []
  | skip + 1, _ :: rest => goRAAux pat rep skip rest
  | 0, c :: rest =>
    if pat ≠ [] ∧ pat.isPrefixOf (c :: rest) then
      rep ++ goRAAux pat rep (pat.length - 1) rest
    else
      c :: goRAAux pat rep 0 rest

/-- Go `strings.ReplaceAll` for a non-empty pattern (see `goRAAux`). -/
def goReplaceAllList (pat rep : List Char) (l : List Char) : List Char :=
  goRAAux pat rep 0 l

/-- Go `strings.ReplaceAll` on `String`s. -/
def goReplaceAll (s pat rep : String) : String :=
  ⟨goReplaceAllList pat.data rep.data s.data⟩

/-- Modelled from the spec: "textual substitution into the first occurrence"
of the pattern — replace only the leftmost occurrence, leave the rest of the
string untouched.  This is the behaviour the specification ascribes to the
global-tag injection; the source uses `strings.ReplaceAll` instead. -/
def replaceFirstList (pat rep : List Char) : List Char → List Char
  | [] => []
  | c :: rest =>
    if pat ≠ [] ∧ pat.isPrefixOf (c :: rest) then
      rep ++ (c :: rest).drop pat.length
    else
      c :: replaceFirstList pat rep rest

/-- Modelled from the spec: first-occurrence-only substitution on `String`s. -/
def replaceFirst (s pat rep : String) : String :=
  ⟨replaceFirstList pat.data rep.data s.data⟩

/-- Go `strconv.ParseInt(s, 10, 0)` (64-bit int): optional sign, at least one
decimal digit, no other characters, result within the `int64` range;
`none` models a parse error. -/
def goParseInt (s : String) : Option Int :=
  let (neg, digits) :=
    match s.data with
    | '-' :: rest => (true, rest)
    | '+' :: rest => (false, rest)
    | l => (false, l)
  if digits = [] then none
  else if digits.all (fun c => c.isDigit) then
    let n : Nat := digits.foldl (fun acc c => acc * 10 + (c.toNat - 48)) 0
    let i : Int := if neg then -(n : Int) else (n : Int)
    if -(2 ^ 63) ≤ i ∧ i ≤ 2 ^ 63 - 1 then some i else none
  else none

/-- Go `strconv.ParseBool`: exactly the listed literals parse. -/
def goParseBool (s : String) : Option Bool :=
  if s = "1" ∨ s = "t" ∨ s = "T" ∨ s = "TRUE" ∨ s = "true" ∨ s = "True" then
    some true
  else if s = "0" ∨ s = "f" ∨ s = "F" ∨ s = "FALSE" ∨ s = "false" ∨ s = "False" then
    some false
  else none

/-- One character of Go `strconv.Quote` (used by `fmt.Sprintf("%q", …)`),
for ASCII input: escape backslash, double quote and the named control
characters; other control bytes become `\xHH`; printable ASCII (and, in this
model, all other characters — every value used in this development is ASCII)
pass through. -/
def goQuoteChar (c : Char) : List Char :=
  if c = '\\' then ['\\', '\\']
  else if c = '"' then ['\\', '"']
  else if c = '\n' then ['\\', 'n']
  else if c = '\t' then ['\\', 't']
  else if c = '\r' then ['\\', 'r']
  else if c.toNat = 7 then ['\\', 'a']
  else if c.toNat = 8 then ['\\', 'b']
  else if c.toNat = 12 then ['\\', 'f']
  else if c.toNat = 11 then ['\\', 'v']
  else if c.toNat < 32 ∨ c.toNat = 127 then
    ['\\', 'x', Nat.digitChar (c.toNat / 16), Nat.digitChar (c.toNat % 16)]
  else [c]

/-- Go `fmt.Sprintf("%q", s)` (ASCII model, see `goQuoteChar`). -/
def goQuote (s : String) : String :=
  ⟨'"' :: s.data.flatMap goQuoteChar ++ ['"']⟩

/-- Byte-wise lexicographic order used by Go's `sort.Strings` /
`sort.Slice(…, keys[i] < keys[j])`; on UTF-8 encoded strings it coincides
with code-point lexicographic order on `String.data`. -/
def goStrLe (a b : String) : Prop := a.data ≤ b.data

instance : DecidableRel goStrLe := fun a b =>
  inferInstanceAs (Decidable (a.data ≤ b.data))

/-! ## Annotation surface

The reserved annotation keys of sidecar.go, and association-list maps
standing in for Go's `map[string]string`. -/

/-- Go `map[string]string`, as an association list (first binding wins). -/
abbrev StrMap := List (String × String)

/-- Map lookup: Go `v, ok := m[k]`. -/
def mapGet? (m : StrMap) (k : String) : Option String :=
  (List.find? (fun kv => kv.1 = k) m).map (·.2)

/-- Go `m[k]` in value position: missing keys read as the zero value `""`. -/
def mapGetD (m : StrMap) (k : String) : String :=
  (mapGet? m k).getD ""

def IstioSidecarAnnotation : String := "sidecar.istio.io/status"
def TelegrafAnnotationCommon : String := "telegraf.influxdata.com"
def TelegrafMetricsPort : String := "telegraf.influxdata.com/port"
def TelegrafMetricsPorts : String := "telegraf.influxdata.com/ports"
def TelegrafMetricsPath : String := "telegraf.influxdata.com/path"
def TelegrafMetricsScheme : String := "telegraf.influxdata.com/scheme"
def TelegrafMetricVersion : String := "telegraf.influxdata.com/metric-version"
def TelegrafInterval : String := "telegraf.influxdata.com/interval"
def TelegrafRawInput : String := "telegraf.influxdata.com/inputs"
def TelegrafEnableInternal : String := "telegraf.influxdata.com/internal"
def TelegrafClass : String := "telegraf.influxdata.com/class"
def TelegrafSecretEnv : String := "telegraf.influxdata.com/secret-env"
def TelegrafEnvFieldRefPrefix : String := "telegraf.influxdata.com/env-fieldref-"
def TelegrafEnvConfigMapKeyRefPrefix : String := "telegraf.influxdata.com/env-configmapkeyref-"
def TelegrafEnvSecretKeyRefPrefix : String := "telegraf.influxdata.com/env-secretkeyref-"
def TelegrafEnvLiteralPrefix : String := "telegraf.influxdata.com/env-literal-"
def TelegrafGlobalTagLiteralPrefix : String := "telegraf.influxdata.com/global-tag-literal-"
def TelegrafImage : String := "telegraf.influxdata.com/image"
def TelegrafRequestsCPU : String := "telegraf.influxdata.com/requests-cpu"
def TelegrafRequestsMemory : String := "telegraf.influxdata.com/requests-memory"
def TelegrafLimitsCPU : String := "telegraf.influxdata.com/limits-cpu"
def TelegrafLimitsMemory : String := "telegraf.influxdata.com/limits-memory"
def telegrafSecretInfix : String := "config"
def TelegrafSecretAnnotationKey : String := "app.kubernetes.io/managed-by"
def TelegrafSecretAnnotationValue : String := "telegraf-operator"
def TelegrafSecretDataKey : String := "telegraf.conf"
def TelegrafSecretLabelClassName : String := TelegrafClass
def TelegrafSecretLabelPod : String := "telegraf.influxdata.com/pod"

/-! ## ports (sidecar.go)

`ports` gathers and merges unique ports from both `TelegrafMetricsPort` and
`TelegrafMetricsPorts` into a Go map used as a set, then returns the sorted
list of its elements (`sort.Strings`). -/

/-- The raw port tokens inserted into the `uniquePorts` set: the value of the
singular annotation, and every comma-separated field of the plural one. -/
def portTokens (annotations : StrMap) : List String :=
  (match mapGet? annotations TelegrafMetricsPort with
   | some p => [p]
   | none => []) ++
  (match mapGet? annotations TelegrafMetricsPorts with
   | some ps => goSplitComma ps
   | none => [])

/-- sidecar.go `ports`: the distinct port tokens, sorted byte-wise
ascending (`sort.Strings`); `nil` (here `[]`) when no port is configured. -/
def ports (annotations : StrMap) : List String :=
  List.insertionSort goStrLe (portTokens annotations).dedup

/-! ## Kubernetes object model

Only the fields the repository reads or writes, plus label/name fields kept
to state frame properties. -/

/-- `corev1.EnvVar` / `EnvVarSource`, restricted to the shapes the code
builds. -/
inductive EnvVarSource where
  | value (v : String)
  | fieldRef (fieldPath : String)
  | configMapKeyRef (refName key : String)
  | secretKeyRef (refName key : String)
  deriving DecidableEq, Repr

structure EnvVar where
  name : String
  source : EnvVarSource
  deriving DecidableEq, Repr

/-- `corev1.EnvFromSource` with a secret reference, as built by
`newContainer`. -/
structure EnvFromSecretRef where
  secretName : String
  optional : Bool
  deriving DecidableEq, Repr

structure VolumeMount where
  name : String
  mountPath : String
  deriving DecidableEq, Repr

/-- `corev1.ResourceRequirements`; a `ResourceList` maps resource names
("cpu", "memory") to quantity strings. -/
structure ResourceRequirements where
  requests : StrMap
  limits : StrMap
  deriving DecidableEq, Repr

structure Container where
  name : String
  image : String
  command : List String
  resources : ResourceRequirements
  env : List EnvVar
  envFrom : List EnvFromSecretRef
  volumeMounts : List VolumeMount
  deriving DecidableEq, Repr

/-- `corev1.Volume` with a secret volume source, as built by `newVolume`. -/
structure Volume where
  name : String
  secretName : String
  deriving DecidableEq, Repr

/-- The slice of `corev1.Pod` the code touches: metadata name/generateName,
labels (never touched, kept for frame statements), annotations (read-only),
and the spec's container and volume lists (append-only). -/
structure Pod where
  name : String
  generateName : String
  labels : StrMap
  annotations : StrMap
  containers : List Container
  volumes : List Volume
  deriving DecidableEq, Repr

/-- `corev1.Secret`: `nspace` stands for the `Namespace` field (a Lean
keyword); `data` merges Go's `Data`/`StringData` (the API server folds
`StringData` into `Data`), holding byte strings. -/
structure K8sSecret where
  name : String
  nspace : String
  annotations : StrMap
  labels : StrMap
  type : String
  data : StrMap
  deriving DecidableEq, Repr

/-! ## Sidecar decision engine (sidecar.go) -/

/-- `sidecarHandler`, with its external collaborators as oracle fields:
`classData` is `classDataHandler.getData` (reads a file, so it may fail),
`parseQuantityOk` tells whether `resource.ParseQuantity` accepts a quantity
string, `tomlParseOk` tells whether `toml.Parse` accepts a configuration
text. -/
structure SidecarHandler where
  telegrafDefaultClass : String
  telegrafImage : String
  telegrafWatchConfig : String
  enableDefaultInternalPlugin : Bool
  requestsCPU : String
  requestsMemory : String
  limitsCPU : String
  limitsMemory : String
  enableIstioInjection : Bool
  istioOutputClass : String
  istioTelegrafImage : String
  istioTelegrafWatchConfig : String
  classData : String → Except GoError String
  parseQuantityOk : String → Bool
  tomlParseOk : String → Bool

def istioInputsConf : String :=
  "\n  [[inputs.prometheus]]\n    urls = [\"http://127.0.0.1:15090/stats/prometheus\"]\n"

/-- sidecar.go `podHasContainerName`. -/
def podHasContainerName (pod : Pod) (name : String) : Bool :=
  pod.containers.any (fun container => container.name = name)

/-- sidecar.go `shouldAddTelegrafSidecar`: no container named "telegraf"
yet, and some annotation key mentioning the common telegraf prefix. -/
def shouldAddTelegrafSidecar (pod : Pod) : Bool :=
  if podHasContainerName pod "telegraf" then false
  else pod.annotations.any (fun kv => goContains kv.1 TelegrafAnnotationCommon)

/-- sidecar.go `shouldAddIstioTelegrafSidecar`. -/
def shouldAddIstioTelegrafSidecar (h : SidecarHandler) (pod : Pod) : Bool :=
  if podHasContainerName pod "telegraf-istio" then false
  else if !h.enableIstioInjection then false
  else pod.annotations.any (fun kv => kv.1 = IstioSidecarAnnotation)

/-- sidecar.go `skip`. -/
def SidecarHandler.skip (h : SidecarHandler) (pod : Pod) : Bool :=
  !shouldAddTelegrafSidecar pod && !shouldAddIstioTelegrafSidecar h pod

/-- sidecar.go `telegrafSecretNames`. -/
def telegrafSecretNames (name : String) : List String :=
  ["telegraf-" ++ telegrafSecretInfix ++ "-" ++ name,
   "telegraf-istio-" ++ telegrafSecretInfix ++ "-" ++ name]

/-! ### assembleConf

The source assembles the configuration in sequential blocks of one
function; the blocks are translated one definition each and composed in
`assembleConfText`, with the final `toml.Parse` gate in `assembleConf`. -/

/-- The `[[inputs.prometheus]]` block of `assembleConf` (empty when no port
is configured), including the metric-version check that fails assembly when
the annotation does not parse as an integer. -/
def prometheusBlock (pod : Pod) : Except GoError String :=
  let ps := ports pod.annotations
  if ps = [] then .ok ""
  else
    let path := (mapGet? pod.annotations TelegrafMetricsPath).getD "/metrics"
    let scheme := (mapGet? pod.annotations TelegrafMetricsScheme).getD "http"
    let intervalConfig :=
      match mapGet? pod.annotations TelegrafInterval with
      | some intervalRaw => "interval = \"" ++ intervalRaw ++ "\""
      | none => ""
    let versionConfigE : Except GoError String :=
      match mapGet? pod.annotations TelegrafMetricVersion with
      | some versionRaw =>
        match goParseInt versionRaw with
        | none =>
          .error (.errorf ("value supplied for " ++ TelegrafMetricVersion ++
            " must be a number, " ++ versionRaw ++ " given"))
        | some version => .ok ("metric_version = " ++ toString version)
      | none => .ok ""
    versionConfigE.map (fun versionConfig =>
      let urls := ps.map (fun port => scheme ++ "://127.0.0.1:" ++ port ++ path)
      if urls = [] then ""
      else
        "\n[[inputs.prometheus]]\n  urls = [\"" ++
          String.intercalate "\", \"" urls ++ "\"]\n  " ++
          intervalConfig ++ "\n  " ++ versionConfig ++ "\n")

/-- `assembleConf` minus the global-tag block and the final parse: scrape
section, internal-metrics section, raw fragment, then the class text. -/
def assembleConfBase (h : SidecarHandler) (pod : Pod) (classData : String) :
    Except GoError String :=
  (prometheusBlock pod).map (fun conf0 =>
    let enableInternal :=
      match mapGet? pod.annotations TelegrafEnableInternal with
      | some internalRaw =>
        match goParseBool internalRaw with
        | some internal => internal
        | none => h.enableDefaultInternalPlugin
      | none => h.enableDefaultInternalPlugin
    let conf1 := if enableInternal then conf0 ++ "\n[[inputs.internal]]\n" else conf0
    let conf2 :=
      match mapGet? pod.annotations TelegrafRawInput with
      | some inputsRaw => conf1 ++ "\n" ++ inputsRaw
      | none => conf1
    conf2 ++ "\n" ++ classData)

/-- The global-tag key/value pairs: annotations under the tag-literal prefix,
the prefix trimmed off the key, sorted by key (`sort.Slice … key <`). -/
def globalTagsOf (annotations : StrMap) : List (String × String) :=
  List.insertionSort (fun a b => goStrLe a.1 b.1)
    ((annotations.filter (fun kv => goHasPrefix kv.1 TelegrafGlobalTagLiteralPrefix)).map
      (fun kv => (goTrimPrefix kv.1 TelegrafGlobalTagLiteralPrefix, kv.2)))

/-- The replacement text: the section header followed by one
`  key = "value"` line per tag. -/
def globalTagsText (tags : List (String × String)) : String :=
  tags.foldl (fun acc kv => acc ++ "  " ++ kv.1 ++ " = " ++ goQuote kv.2 ++ "\n")
    "[global_tags]\n"

/-- The global-tag block of `assembleConf`: when at least one tag-literal
annotation exists, append a fresh `[global_tags]` header unless one is
already present, then substitute the header (every occurrence —
`strings.ReplaceAll`) by the header plus the tag lines. -/
def applyGlobalTags (annotations : StrMap) (telegrafConf : String) : String :=
  let globalTags := globalTagsOf annotations
  if globalTags.length > 0 then
    let text := globalTagsText globalTags
    let conf :=
      if !goContains telegrafConf "[global_tags]\n" then
        telegrafConf ++ "\n" ++ "[global_tags]\n"
      else telegrafConf
    goReplaceAll conf "[global_tags]\n" text
  else telegrafConf

/-- The assembled configuration text, before the final parse check:
class-data resolution (wrapped as non-fatal when it fails), the base blocks,
then the global-tag block. -/
def assembleConfText (h : SidecarHandler) (pod : Pod) (className : String) :
    Except GoError String :=
  match h.classData className with
  | .error e =>
    .error (newNonFatalError e
      "telegraf-operator could not create sidecar container for unknown class")
  | .ok classData =>
    (assembleConfBase h pod classData).map (applyGlobalTags pod.annotations)

/-- sidecar.go `assembleConf`: the assembled text must pass `toml.Parse`,
else a configuration-invalid error. -/
def assembleConf (h : SidecarHandler) (pod : Pod) (className : String) :
    Except GoError String :=
  match assembleConfText h pod className with
  | .error e => .error e
  | .ok telegrafConf =>
    if h.tomlParseOk telegrafConf then .ok telegrafConf
    else .error (.errorf "resulting Telegraf is not a valid file")

/-! ### Container construction -/

/-- sidecar.go `createTelegrafCommand`. -/
def createTelegrafCommand (watchConfig : String) : List String :=
  let command := ["telegraf", "--config", "/etc/telegraf/telegraf.conf"]
  if watchConfig ≠ "" then command ++ ["--watch-config", watchConfig] else command

/-- sidecar.go `AnnotationsWithPrefix`: the annotations under a prefix, the
prefix trimmed off (Go builds a fresh map; the embedding keeps the
annotation-list order where Go map iteration is unordered). -/
def AnnotationsWithPrefix (annotations : StrMap) (pre : String) : StrMap :=
  (annotations.filter (fun kv => goHasPrefix kv.1 pre)).map
    (fun kv => (goTrimPrefix kv.1 pre, kv.2))

/-- Go `strings.SplitN(value, ".", 2)`: at most two fields, split at the
first dot. -/
def goSplitNDot2 (s : String) : List String :=
  match s.data.findIdx? (fun c => c = '.') with
  | some i => [⟨s.data.take i⟩, ⟨s.data.drop (i + 1)⟩]
  | none => [s]

/-- sidecar.go `parseCustomOrDefaultQuantity`: set the resource to the
custom quantity, falling back to the handler default when the custom one
does not parse; quantities are kept as their source strings (the Go code
stores the parsed `resource.Quantity`). -/
def parseCustomOrDefaultQuantity (parseQuantityOk : String → Bool)
    (result : StrMap) (resourceName customQuantity defaultQuantity : String) :
    Except GoError StrMap :=
  if customQuantity = "" then .ok result
  else if parseQuantityOk customQuantity then
    .ok (result ++ [(resourceName, customQuantity)])
  else if defaultQuantity = "" then .ok result
  else if parseQuantityOk defaultQuantity then
    .ok (result ++ [(resourceName, defaultQuantity)])
  else .error (.errorf ("unable to parse resource " ++ defaultQuantity))

/-- The environment variables `newContainer` appends from the four prefixed
annotation families: field references, literals, config-map key references
and secret key references; malformed two-part selectors are skipped. -/
def envFromAnnotations (annotations : StrMap) : List EnvVar :=
  ((AnnotationsWithPrefix annotations TelegrafEnvFieldRefPrefix).map
    (fun kv => EnvVar.mk kv.1 (.fieldRef kv.2))) ++
  ((AnnotationsWithPrefix annotations TelegrafEnvLiteralPrefix).map
    (fun kv => EnvVar.mk kv.1 (.value kv.2))) ++
  ((AnnotationsWithPrefix annotations TelegrafEnvConfigMapKeyRefPrefix).filterMap
    (fun kv =>
      match goSplitNDot2 kv.2 with
      | [refName, key] => some (EnvVar.mk kv.1 (.configMapKeyRef refName key))
      | _ => none)) ++
  ((AnnotationsWithPrefix annotations TelegrafEnvSecretKeyRefPrefix).filterMap
    (fun kv =>
      match goSplitNDot2 kv.2 with
      | [refName, key] => some (EnvVar.mk kv.1 (.secretKeyRef refName key))
      | _ => none))

/-- sidecar.go `newContainer`. -/
def newContainer (h : SidecarHandler) (pod : Pod) (containerName : String) :
    Except GoError Container :=
  let telegrafImage := (mapGet? pod.annotations TelegrafImage).getD h.telegrafImage
  let telegrafRequestsCPU :=
    (mapGet? pod.annotations TelegrafRequestsCPU).getD h.requestsCPU
  let telegrafRequestsMemory :=
    (mapGet? pod.annotations TelegrafRequestsMemory).getD h.requestsMemory
  let telegrafLimitsCPU :=
    (mapGet? pod.annotations TelegrafLimitsCPU).getD h.limitsCPU
  let telegrafLimitsMemory :=
    (mapGet? pod.annotations TelegrafLimitsMemory).getD h.limitsMemory
  (parseCustomOrDefaultQuantity h.parseQuantityOk [] "cpu"
      telegrafRequestsCPU h.requestsCPU).bind (fun requests1 =>
  (parseCustomOrDefaultQuantity h.parseQuantityOk requests1 "memory"
      telegrafRequestsMemory h.requestsMemory).bind (fun resourceRequests =>
  (parseCustomOrDefaultQuantity h.parseQuantityOk [] "cpu"
      telegrafLimitsCPU h.limitsCPU).bind (fun limits1 =>
  (parseCustomOrDefaultQuantity h.parseQuantityOk limits1 "memory"
      telegrafLimitsMemory h.limitsMemory).map (fun resourceLimits =>
    let secretEnvFrom : List EnvFromSecretRef :=
      match mapGet? pod.annotations TelegrafSecretEnv with
      | some secretEnv => [⟨secretEnv, true⟩]
      | none => []
    { name := containerName
      image := telegrafImage
      command := createTelegrafCommand h.telegrafWatchConfig
      resources := { requests := resourceRequests, limits := resourceLimits }
      env := [⟨"NODENAME", .fieldRef "spec.nodeName"⟩] ++ envFromAnnotations pod.annotations
      envFrom := secretEnvFrom
      volumeMounts := [⟨containerName ++ "-config", "/etc/telegraf"⟩] }))))

/-- sidecar.go `newIstioContainer`: all four handler quantities must parse. -/
def newIstioContainer (h : SidecarHandler) (containerName : String) :
    Except GoError Container :=
  if h.parseQuantityOk h.requestsCPU ∧ h.parseQuantityOk h.requestsMemory ∧
      h.parseQuantityOk h.limitsCPU ∧ h.parseQuantityOk h.limitsMemory then
    let telegrafImage :=
      if h.istioTelegrafImage = "" then h.telegrafImage else h.istioTelegrafImage
    .ok
      { name := containerName
        image := telegrafImage
        command := createTelegrafCommand h.istioTelegrafWatchConfig
        resources :=
          { requests := [("cpu", h.requestsCPU), ("memory", h.requestsMemory)]
            limits := [("cpu", h.limitsCPU), ("memory", h.limitsMemory)] }
        env := [⟨"NODENAME", .fieldRef "spec.nodeName"⟩]
        envFrom := []
        volumeMounts := [⟨containerName ++ "-config", "/etc/telegraf"⟩] }
  else .error (.errorf "unable to parse quantity")

/-- sidecar.go `newSecret` (the `pod` argument is accepted and unused, as in
the source). -/
def newSecret (_pod : Pod) (className name nspace containerName telegrafConf : String) :
    K8sSecret :=
  { name := containerName ++ "-" ++ telegrafSecretInfix ++ "-" ++ name
    nspace := nspace
    annotations := [(TelegrafSecretAnnotationKey, TelegrafSecretAnnotationValue)]
    labels := [(TelegrafSecretLabelClassName, className), (TelegrafSecretLabelPod, name)]
    type := "Opaque"
    data := [(TelegrafSecretDataKey, telegrafConf)] }

/-- sidecar.go `newVolume`. -/
def newVolume (name containerName : String) : Volume :=
  { name := containerName ++ "-config"
    secretName := containerName ++ "-" ++ telegrafSecretInfix ++ "-" ++ name }

/-! ### addSidecars

Go mutates the pod in place; the embedding threads the pod explicitly, so
every function that mutates it returns the new pod (also on error, since a
Go error return leaves earlier mutations in place). -/

/-- sidecar.go `addContainerAndSecret`: append the container and its volume
to the pod spec, and the pending secret to the result set. -/
def addContainerAndSecret (result : List K8sSecret) (pod : Pod)
    (container : Container) (className name nspace telegrafConf : String) :
    List K8sSecret × Pod :=
  let pod' := { pod with
    containers := pod.containers ++ [container]
    volumes := pod.volumes ++ [newVolume name container.name] }
  (result ++ [newSecret pod' className name nspace container.name telegrafConf], pod')

/-- The effective class name of the telegraf sidecar: pod annotation
overriding the operator default (inlined in `addTelegrafSidecar`). -/
def effectiveClassName (h : SidecarHandler) (pod : Pod) : String :=
  (mapGet? pod.annotations TelegrafClass).getD h.telegrafDefaultClass

/-- sidecar.go `addTelegrafSidecar`: any assembly failure is wrapped as a
non-fatal error. -/
def addTelegrafSidecar (h : SidecarHandler) (result : List K8sSecret)
    (pod : Pod) (name nspace containerName : String) :
    Pod × Except GoError (List K8sSecret) :=
  match assembleConf h pod (effectiveClassName h pod) with
  | .error e =>
    (pod, .error (newNonFatalError e
      "telegraf-operator could not create sidecar container due to error in class data"))
  | .ok telegrafConf =>
    match newContainer h pod containerName with
    | .error e => (pod, .error e)
    | .ok container =>
      ((addContainerAndSecret result pod container (effectiveClassName h pod)
          name nspace telegrafConf).2,
       .ok (addContainerAndSecret result pod container (effectiveClassName h pod)
          name nspace telegrafConf).1)

/-- sidecar.go `addIstioTelegrafSidecar`. -/
def addIstioTelegrafSidecar (h : SidecarHandler) (result : List K8sSecret)
    (pod : Pod) (name nspace : String) :
    Pod × Except GoError (List K8sSecret) :=
  match h.classData h.istioOutputClass with
  | .error e =>
    (pod, .error (newNonFatalError e
      "telegraf-operator could not create sidecar container for istio class"))
  | .ok classData =>
    match newIstioContainer h "telegraf-istio" with
    | .error e => (pod, .error e)
    | .ok container =>
      ((addContainerAndSecret result pod container h.istioOutputClass name nspace
          (istioInputsConf ++ "\n\n" ++ classData)).2,
       .ok (addContainerAndSecret result pod container h.istioOutputClass name nspace
          (istioInputsConf ++ "\n\n" ++ classData)).1)

/-- sidecar.go `addSidecars`: run each active gate in order, accumulating
pending secrets; a gate's error aborts (previous in-place pod mutations
persisting, as in Go). -/
def addSidecars (h : SidecarHandler) (pod : Pod) (name nspace : String) :
    Pod × Except GoError (List K8sSecret) :=
  if shouldAddTelegrafSidecar pod then
    match addTelegrafSidecar h [] pod name nspace "telegraf" with
    | (pod1, .error e) => (pod1, .error e)
    | (pod1, .ok result1) =>
      if shouldAddIstioTelegrafSidecar h pod1 then
        addIstioTelegrafSidecar h result1 pod1 name nspace
      else (pod1, .ok result1)
  else
    if shouldAddIstioTelegrafSidecar h pod then
      addIstioTelegrafSidecar h [] pod name nspace
    else (pod, .ok [])

/-! ## Kubernetes API client model

The cluster's secrets as a list keyed by (namespace, name); `Create`,
`Get`, `Update` and `Delete` follow the Kubernetes API semantics the code
relies on (`Create` of an existing name fails with AlreadyExists). -/

abbrev SecretStore := List K8sSecret

/-- `client.Get` on secrets. -/
def storeGet (st : SecretStore) (nspace name : String) : Option K8sSecret :=
  st.find? (fun s => s.nspace = nspace ∧ s.name = name)

/-- `client.Create`. -/
def clientCreate (st : SecretStore) (secret : K8sSecret) : Except GoError SecretStore :=
  match storeGet st secret.nspace secret.name with
  | some _ => .error .apiAlreadyExists
  | none => .ok (st ++ [secret])

/-- `client.Update`: replace the stored object of the same key. -/
def clientUpdate (st : SecretStore) (secret : K8sSecret) : Except GoError SecretStore :=
  match storeGet st secret.nspace secret.name with
  | some _ =>
    .ok (st.map (fun s =>
      if s.nspace = secret.nspace ∧ s.name = secret.name then secret else s))
  | none => .error .apiNotFound

/-- `client.Delete`. -/
def clientDelete (st : SecretStore) (nspace name : String) : Except GoError SecretStore :=
  match storeGet st nspace name with
  | some _ => .ok (st.filter (fun s => ¬(s.nspace = nspace ∧ s.name = name)))
  | none => .error .apiNotFound

/-! ## Secret lifecycle protocol (handler.go) -/

/-- handler.go `isSecretManagedByTelegrafOperator`: type `Opaque`, exactly
one data key whose value under the well-known key is non-empty, and (when
annotation enforcement is on) the managed-by annotation. -/
def isSecretManagedByTelegrafOperator (requireAnnotationsForSecret : Bool)
    (secret : K8sSecret) : Bool :=
  if secret.type ≠ "Opaque" then false
  else if secret.data.length ≠ 1 ∨ (mapGetD secret.data TelegrafSecretDataKey).length = 0 then
    false
  else if requireAnnotationsForSecret ∧
      ¬(mapGetD secret.annotations TelegrafSecretAnnotationKey = TelegrafSecretAnnotationValue) then
    false
  else true

/-- handler.go `createOrUpdateSecrets`: for each pending secret, attempt
creation; when it already exists, fetch it, refuse with a conflict error
unless it is managed, else update it.  The store is threaded (an error keeps
every API write already performed, as in Go). -/
def createOrUpdateSecrets (requireAnnotationsForSecret : Bool)
    (st : SecretStore) : List K8sSecret → SecretStore × Option GoError
  | [] => (st, none)
  | secret :: rest =>
    match clientCreate st secret with
    | .ok st' => createOrUpdateSecrets requireAnnotationsForSecret st' rest
    | .error .apiAlreadyExists =>
      match storeGet st secret.nspace secret.name with
      | none => (st, some .apiNotFound)
      | some existingSecret =>
        if ¬isSecretManagedByTelegrafOperator requireAnnotationsForSecret existingSecret then
          (st, some (.errorf ("unable to update existing secret " ++ secret.name ++
            " in namespace " ++ secret.nspace ++
            " as it is not managed by telegraf-operator")))
        else
          match clientUpdate st secret with
          | .ok st' => createOrUpdateSecrets requireAnnotationsForSecret st' rest
          | .error e => (st, some e)
    | .error e => (st, some e)

/-! ## Admission handler (handler.go `Handle`) -/

inductive AdmOperation where
  | create
  | update
  | delete
  deriving DecidableEq, Repr

/-- The admission request: operation, target name/namespace, and the pod the
decoder yields (decoding itself is transport, modelled as succeeding). -/
structure AdmRequest where
  operation : AdmOperation
  name : String
  nspace : String
  pod : Pod

/-- The admission response: allow unchanged (with an advisory message),
reject with an HTTP status, or allow with a patch to the mutated pod. -/
inductive AdmResponse where
  | allowed (msg : String)
  | errored (code : Nat)
  | patched (pod : Pod)

/-- `podInjector`: the sidecar handler, the secret-ownership strictness
flag, and the generated-name oracle (`names.SimpleNameGenerator`). -/
structure PodInjector where
  sidecar : SidecarHandler
  requireAnnotationsForSecret : Bool
  generateName : String → String

/-- handler.go `Handle`, returning the response and the secret store after
the API calls the handler made. -/
def Handle (a : PodInjector) (st : SecretStore) (req : AdmRequest) :
    AdmResponse × SecretStore :=
  match req.operation with
  | .delete =>
    let (st', deleteFailed) :=
      (telegrafSecretNames req.name).foldl
        (fun acc name =>
          match clientDelete acc.1 req.nspace name with
          | .ok st2 => (st2, acc.2)
          | .error _ => (acc.1, true))
        (st, false)
    if deleteFailed then
      (.allowed "telegraf-injector couldn't delete one or more secrets", st')
    else
      (.allowed "telegraf-injector doesn't block pod deletions", st')
  | _ =>
    let pod := req.pod
    if a.sidecar.skip pod then
      (.allowed "telegraf-injector has no power over this pod", st)
    else
      let pod :=
        if pod.name = "" then { pod with name := a.generateName pod.generateName }
        else pod
      match addSidecars a.sidecar pod pod.name req.nspace with
      | (_, .error e) =>
        match e with
        | .nonFatal _ message => (.allowed message, st)
        | _ => (.errored 400, st)
      | (pod', .ok secrets) =>
        match createOrUpdateSecrets a.requireAnnotationsForSecret st secrets with
        | (st', some _) => (.errored 400, st')
        | (st', none) => (.patched pod', st')

/-! ## Namespace reconciler (updater.go) -/

/-- `secretsUpdater`: the assembly function is a function-typed field in the
source as well. -/
structure SecretsUpdater where
  assembleConf : Pod → String → Except GoError String

/-- updater.go `updateSecretsInNamespace`, for one namespace: iterate over
the secrets carrying the managed-class label, re-derive each one's
configuration from its pod, and write back exactly those whose stored text
differs.  Returns the write set (secret, new text); any step's failure
aborts the pass.  The API reads (`List`, pod `Get`) are supplied as the
secrets list and the `pods` map; the `Update` write is recorded rather than
replayed against a store. -/
def updateSecretsInNamespace (u : SecretsUpdater) (pods : String → Option Pod) :
    List K8sSecret → Except GoError (List (K8sSecret × String))
  | [] => .ok []
  | secret :: rest =>
    let podName := mapGetD secret.labels TelegrafSecretLabelPod
    let className := mapGetD secret.labels TelegrafSecretLabelClassName
    if podName = "" ∨ className = "" then
      .error (.errorf ("unable to get pod and class name for secret " ++ secret.name))
    else
      match pods podName with
      | none => .error .apiNotFound
      | some pod =>
        match u.assembleConf pod className with
        | .error e => .error e
        | .ok telegrafConf =>
          if mapGetD secret.data TelegrafSecretDataKey ≠ telegrafConf then
            (updateSecretsInNamespace u pods rest).map
              (fun updates => (secret, telegrafConf) :: updates)
          else
            updateSecretsInNamespace u pods rest

/-! ## Hot-reload watcher (watcher.go)

`monitorForChanges` bumps a shared counter on every raw fsnotify event and
signals the queue; `batchChanges` drains the queue.  The embedding models
one queue-signal iteration of `batchChanges` by the two counter values the
worker observes: `atWake` when it receives the signal, and `afterSleep`
after the quiescence window (during which further events may have arrived).
The callback is recorded as a count. -/

structure WakeObs where
  atWake : Nat
  afterSleep : Nat
  deriving DecidableEq, Repr

/-- One iteration of the `batchChanges` loop body: if the counter at wake
time equals the last processed value, do nothing; otherwise sleep one
quiescence window, re-read the counter, invoke the callback once, and
record the re-read value. -/
def batchChangesStep (previousEventCount : Nat) (o : WakeObs) : Nat × Nat :=
  if o.atWake ≠ previousEventCount then (o.afterSleep, 1)
  else (previousEventCount, 0)

/-- The `batchChanges` loop over a finite prefix of queue signals: final
`previousEventCount` and total number of callback invocations. -/
def batchChangesRun (previousEventCount : Nat) : List WakeObs → Nat × Nat
  | [] => (previousEventCount, 0)
  | o :: rest =>
    let (prev', calls) := batchChangesStep previousEventCount o
    let (prevFinal, callsRest) := batchChangesRun prev' rest
    (prevFinal, calls + callsRest)

/-! ## Derived notions and concrete fixtures

`PodAppendsOnly` names the decision engine's frame discipline; the `ex…`,
`…C2`, `…C7`, `…C9` definitions are concrete handlers, pods and secrets
used to instantiate the theorems below on closed inputs. -/

/-- The frame relation of the decision engine on a pod: annotations, names
and labels untouched; containers and volumes only appended to. -/
def PodAppendsOnly (pod pod' : Pod) : Prop :=
  pod'.annotations = pod.annotations ∧
  pod'.name = pod.name ∧
  pod'.generateName = pod.generateName ∧
  pod'.labels = pod.labels ∧
  (∃ newContainers, pod'.containers = pod.containers ++ newContainers) ∧
  (∃ newVolumes, pod'.volumes = pod.volumes ++ newVolumes)

instance : IsTotal String goStrLe :=
  ⟨fun a b => le_total a.data b.data⟩

instance : IsTrans String goStrLe :=
  ⟨fun _ _ _ h1 h2 => le_trans h1 h2⟩

instance : IsAntisymm String goStrLe :=
  ⟨fun a b h1 h2 => by
    cases a with
    | mk da =>
      cases b with
      | mk db => exact congrArg String.mk (le_antisymm h1 h2)⟩

instance : DecidableEq (Except GoError String) :=
  fun a b =>
    match a, b with
    | .ok x, .ok y => decidable_of_iff (x = y) (by simp)
    | .error x, .error y => decidable_of_iff (x = y) (by simp)
    | .ok _, .error _ => isFalse (by simp)
    | .error _, .ok _ => isFalse (by simp)

/-- A basic concrete handler: istio injection off, an empty class, every
quantity and every configuration text accepted by the external parsers. -/
def exHandler : SidecarHandler :=
  { telegrafDefaultClass := "cls"
    telegrafImage := "img"
    telegrafWatchConfig := ""
    enableDefaultInternalPlugin := false
    requestsCPU := "10m"
    requestsMemory := "10Mi"
    limitsCPU := "100m"
    limitsMemory := "100Mi"
    enableIstioInjection := false
    istioOutputClass := "istio"
    istioTelegrafImage := ""
    istioTelegrafWatchConfig := ""
    classData := fun _ => .ok ""
    parseQuantityOk := fun _ => true
    tomlParseOk := fun _ => true }

def exContainerTelegraf : Container :=
  { name := "telegraf"
    image := "i"
    command := []
    resources := { requests := [], limits := [] }
    env := []
    envFrom := []
    volumeMounts := [] }

/-- A pod that already carries a container named "telegraf" and a telegraf
annotation. -/
def exPodWithTelegraf : Pod :=
  { name := "p"
    generateName := ""
    labels := []
    annotations := [(TelegrafMetricsPort, "6060")]
    containers := [exContainerTelegraf]
    volumes := [] }

/-- Handler whose single class resolves to a bare global-tag header. -/
def hC2 : SidecarHandler :=
  { exHandler with classData := fun _ => .ok "[global_tags]\n" }

/-- A pod with one global-tag-literal annotation and a raw-input fragment
that itself contains a global-tag header, so the assembled text carries the
header twice before injection. -/
def podC2 : Pod :=
  { name := "p"
    generateName := ""
    labels := []
    annotations := [(TelegrafGlobalTagLiteralPrefix ++ "env", "dev"),
                    (TelegrafRawInput, "[global_tags]\n")]
    containers := []
    volumes := [] }

/-- A pod with one global-tag-literal annotation and nothing else, so the
assembled text carries the header exactly once (from the class data). -/
def podC2single : Pod :=
  { name := "p"
    generateName := ""
    labels := []
    annotations := [(TelegrafGlobalTagLiteralPrefix ++ "env", "dev")]
    containers := []
    volumes := [] }

/-- Handler whose TOML parser rejects every text. -/
def hC7 : SidecarHandler :=
  { exHandler with tomlParseOk := fun _ => false }

/-- A pod with only a raw-input fragment (standing for deliberately invalid
configuration syntax). -/
def podC7 : Pod :=
  { name := "p"
    generateName := ""
    labels := []
    annotations := [(TelegrafRawInput, "this is not toml")]
    containers := []
    volumes := [] }

/-- A pod with a scrape port and a metric-version annotation that does not
parse as an integer. -/
def podC9 : Pod :=
  { name := "p"
    generateName := ""
    labels := []
    annotations := [(TelegrafMetricsPort, "6060"), (TelegrafMetricVersion, "x1")]
    containers := []
    volumes := [] }

/-- A pending secret as the decision engine produces it. -/
def exPendingSecret : K8sSecret :=
  newSecret exPodWithTelegraf "cls" "p" "default" "telegraf" "fresh"

/-- An existing secret of a foreign type under the pending secret's name. -/
def exForeignSecret : K8sSecret :=
  { name := "telegraf-config-p"
    nspace := "default"
    annotations := []
    labels := []
    type := "kubernetes.io/dockercfg"
    data := [("auth", "x"), ("extra", "y")] }

/-- An existing secret with exactly the expected key, the managed type and
annotation, but an empty stored value. -/
def exEmptyValueSecret : K8sSecret :=
  { name := "telegraf-config-p"
    nspace := "default"
    annotations := [(TelegrafSecretAnnotationKey, TelegrafSecretAnnotationValue)]
    labels := [(TelegrafSecretLabelClassName, "cls"), (TelegrafSecretLabelPod, "p")]
    type := "Opaque"
    data := [(TelegrafSecretDataKey, "")] }

/-- A reconciler whose assembly always renders "fresh". -/
def exUpdater : SecretsUpdater :=
  { assembleConf := fun _ _ => .ok "fresh" }

/-- The pod map of the reconciler fixtures: one pod named "p". -/
def exPods : String → Option Pod :=
  fun n => if n = "p" then some exPodWithTelegraf else none

/-- A managed secret whose stored text is stale. -/
def exStaleSecret : K8sSecret :=
  { name := "telegraf-config-p"
    nspace := "default"
    annotations := [(TelegrafSecretAnnotationKey, TelegrafSecretAnnotationValue)]
    labels := [(TelegrafSecretLabelClassName, "cls"), (TelegrafSecretLabelPod, "p")]
    type := "Opaque"
    data := [(TelegrafSecretDataKey, "stale")] }

/-- A managed secret whose stored text equals the freshly rendered text. -/
def exFreshSecret : K8sSecret :=
  { exStaleSecret with data := [(TelegrafSecretDataKey, "fresh")] }

/-- An injector around `exHandler` (used with `podC9`). -/
def exInjectorC9 : PodInjector :=
  { sidecar := exHandler
    requireAnnotationsForSecret := false
    generateName := fun s => s ++ "abcde" }

/-- The admission request carrying `podC9`. -/
def exRequestC9 : AdmRequest :=
  { operation := .create, name := "p", nspace := "default", pod := podC9 }

/-- An injector around the parse-rejecting handler `hC7`. -/
def exInjectorC7 : PodInjector :=
  { sidecar := hC7
    requireAnnotationsForSecret := false
    generateName := fun s => s ++ "abcde" }

/-- The admission request carrying `podC7`. -/
def exRequestC7 : AdmRequest :=
  { operation := .create, name := "p", nspace := "default", pod := podC7 }

/-! # Theorems

## C3: the debouncing worker -/

/-- C3: a `batchChanges` iteration that wakes with the event counter equal to
the last processed value invokes no callback and keeps its state; one that
wakes with a different counter sleeps one quiescence window, re-reads the
counter, invokes the callback exactly once and records the re-read value.
Consequently three raw notifications arriving within one window (the first
wake sees a non-zero counter, the window absorbs the rest, so the re-read
value and the later wakes all see the final counter 3) yield exactly one
callback, while three notifications separated by full windows (each wake
sees one more event, fully absorbed before the next) yield three. -/
theorem batchChanges_debounce :
    (∀ (prev : Nat) (o : WakeObs), o.atWake = prev →
      batchChangesStep prev o = (prev, 0)) ∧
    (∀ (prev : Nat) (o : WakeObs), o.atWake ≠ prev →
      batchChangesStep prev o = (o.afterSleep, 1)) ∧
    (∀ o₁ o₂ o₃ : WakeObs, o₁.atWake ≠ 0 → o₁.afterSleep = 3 →
      o₂.atWake = 3 → o₃.atWake = 3 →
      (batchChangesRun 0 [o₁, o₂, o₃]).2 = 1) ∧
    (batchChangesRun 0 [⟨1, 1⟩, ⟨2, 2⟩, ⟨3, 3⟩]).2 = 3 := by
  refine ⟨?_, ?_, ?_, by decide⟩
  · intro prev o h
    simp [batchChangesStep, h]
  · intro prev o h
    simp [batchChangesStep, h]
  · intro o₁ o₂ o₃ h1 h2 h3 h4
    simp [batchChangesRun, batchChangesStep, h1, h2, h3, h4]

/-- Witness for C3 at concrete observations: a quiet wake does nothing, and
a burst of three events (first wake at counter 1, window absorbing up to 3,
two further wakes at 3) invokes the callback once. -/
theorem batchChanges_debounce_witness :
    batchChangesStep 0 ⟨0, 5⟩ = (0, 0) ∧
    (batchChangesRun 0 [⟨1, 3⟩, ⟨3, 3⟩, ⟨3, 3⟩]).2 = 1 :=
  ⟨batchChanges_debounce.1 0 ⟨0, 5⟩ rfl,
   batchChanges_debounce.2.2.1 ⟨1, 3⟩ ⟨3, 3⟩ ⟨3, 3⟩ (by decide) rfl rfl rfl⟩

/-! ## C6: port merging -/

/-- C6: `ports` returns the merged, deduplicated port list sorted
byte-wise-lexicographically; the result depends only on the set of supplied
port tokens (hence is independent of their order and duplication); and the
plural value "9999,6060,6060" together with the singular value "6060"
yields ["6060", "9999"]. -/
theorem ports_merged_dedup_sorted_stable :
    (∀ annotations : StrMap,
      (ports annotations).Sorted goStrLe ∧
      (ports annotations).Nodup ∧
      (∀ p, p ∈ ports annotations ↔ p ∈ portTokens annotations)) ∧
    (∀ a₁ a₂ : StrMap, (∀ p, p ∈ portTokens a₁ ↔ p ∈ portTokens a₂) →
      ports a₁ = ports a₂) ∧
    ports [(TelegrafMetricsPorts, "9999,6060,6060"), (TelegrafMetricsPort, "6060")] =
      ["6060", "9999"] := by
  have hsorted : ∀ a : StrMap, (ports a).Sorted goStrLe := fun a =>
    List.sorted_insertionSort goStrLe (portTokens a).dedup
  have hperm : ∀ a : StrMap, (ports a).Perm (portTokens a).dedup := fun a =>
    List.perm_insertionSort goStrLe (portTokens a).dedup
  have hnodup : ∀ a : StrMap, (ports a).Nodup := fun a =>
    ((hperm a).nodup_iff).mpr (List.nodup_dedup (portTokens a))
  have hmem : ∀ (a : StrMap) (p : String), p ∈ ports a ↔ p ∈ portTokens a := by
    intro a p
    rw [(hperm a).mem_iff, List.mem_dedup]
  refine ⟨fun a => ⟨hsorted a, hnodup a, hmem a⟩, ?_, by decide⟩
  intro a₁ a₂ h
  apply List.eq_of_perm_of_sorted _ (hsorted a₁) (hsorted a₂)
  apply (List.perm_ext_iff_of_nodup (hnodup a₁) (hnodup a₂)).mpr
  intro p
  rw [hmem a₁ p, hmem a₂ p]
  exact h p

/-- Witness for C6's stability part: the same token set supplied through
the two annotation forms in a different arrangement yields the same list. -/
theorem ports_merged_dedup_sorted_stable_witness :
    ports [(TelegrafMetricsPort, "6060"), (TelegrafMetricsPorts, "9999")] =
      ports [(TelegrafMetricsPorts, "9999,6060")] := by
  apply ports_merged_dedup_sorted_stable.2.1
  intro p
  have h1 : portTokens [(TelegrafMetricsPort, "6060"), (TelegrafMetricsPorts, "9999")] =
      ["6060", "9999"] := by decide
  have h2 : portTokens [(TelegrafMetricsPorts, "9999,6060")] = ["9999", "6060"] := by decide
  rw [h1, h2]
  simp only [List.mem_cons, List.not_mem_nil, or_false]
  exact or_comm

/-! ## C8: the decision engine's frame -/

theorem podAppendsOnly_refl (pod : Pod) : PodAppendsOnly pod pod :=
  ⟨rfl, rfl, rfl, rfl, ⟨[], by simp⟩, ⟨[], by simp⟩⟩

theorem podAppendsOnly_trans {p q r : Pod}
    (h1 : PodAppendsOnly p q) (h2 : PodAppendsOnly q r) : PodAppendsOnly p r := by
  obtain ⟨a1, n1, g1, l1, ⟨cs1, c1⟩, ⟨vs1, v1⟩⟩ := h1
  obtain ⟨a2, n2, g2, l2, ⟨cs2, c2⟩, ⟨vs2, v2⟩⟩ := h2
  refine ⟨a2.trans a1, n2.trans n1, g2.trans g1, l2.trans l1,
    ⟨cs1 ++ cs2, ?_⟩, ⟨vs1 ++ vs2, ?_⟩⟩
  · rw [c2, c1, List.append_assoc]
  · rw [v2, v1, List.append_assoc]

theorem addTelegrafSidecar_appendsOnly (h : SidecarHandler) (result : List K8sSecret)
    (pod : Pod) (name nspace containerName : String) :
    PodAppendsOnly pod (addTelegrafSidecar h result pod name nspace containerName).1 := by
  unfold addTelegrafSidecar
  split
  · exact podAppendsOnly_refl pod
  · split
    · exact podAppendsOnly_refl pod
    · exact ⟨rfl, rfl, rfl, rfl, ⟨_, rfl⟩, ⟨_, rfl⟩⟩

theorem addIstioTelegrafSidecar_appendsOnly (h : SidecarHandler)
    (result : List K8sSecret) (pod : Pod) (name nspace : String) :
    PodAppendsOnly pod (addIstioTelegrafSidecar h result pod name nspace).1 := by
  unfold addIstioTelegrafSidecar
  split
  · exact podAppendsOnly_refl pod
  · split
    · exact podAppendsOnly_refl pod
    · exact ⟨rfl, rfl, rfl, rfl, ⟨_, rfl⟩, ⟨_, rfl⟩⟩

/-- C8: the decision engine never modifies the pod's annotation map and only
appends to the pod spec's containers and volumes, leaving every other
modelled pod field unchanged — whether each gate succeeds, fails or does not
run. -/
theorem addSidecars_frame (h : SidecarHandler) (pod : Pod) (name nspace : String) :
    PodAppendsOnly pod (addSidecars h pod name nspace).1 := by
  unfold addSidecars
  split
  · rcases hT : addTelegrafSidecar h [] pod name nspace "telegraf" with ⟨pod1, res1⟩
    have h1 : PodAppendsOnly pod pod1 := by
      have := addTelegrafSidecar_appendsOnly h [] pod name nspace "telegraf"
      rwa [hT] at this
    cases res1 with
    | error e => exact h1
    | ok result1 =>
      simp only
      split
      · exact podAppendsOnly_trans h1
          (addIstioTelegrafSidecar_appendsOnly h result1 pod1 name nspace)
      · exact h1
  · split
    · exact addIstioTelegrafSidecar_appendsOnly h [] pod name nspace
    · exact podAppendsOnly_refl pod

/-! ## C5: the primary gate -/

theorem newIstioContainer_name (h : SidecarHandler) (containerName : String)
    (container : Container)
    (hc : newIstioContainer h containerName = .ok container) :
    container.name = containerName := by
  unfold newIstioContainer at hc
  split at hc
  · injection hc with h2
    rw [← h2]
  · exact absurd hc (by simp)

/-- C5: the primary gate is true exactly when no container named "telegraf"
exists and some annotation key mentions the reserved telegraf marker; and on
a pod that already has a container named "telegraf", the decision engine
never appends another container of that name, whatever the annotations. -/
theorem primary_gate_iff_no_second_sidecar :
    (∀ pod : Pod, shouldAddTelegrafSidecar pod = true ↔
      (podHasContainerName pod "telegraf" = false ∧
       ∃ kv ∈ pod.annotations, goContains kv.1 TelegrafAnnotationCommon = true)) ∧
    (∀ (h : SidecarHandler) (pod : Pod) (name nspace : String),
      podHasContainerName pod "telegraf" = true →
      (addSidecars h pod name nspace).1.containers.countP
          (fun c => c.name = "telegraf") =
        pod.containers.countP (fun c => c.name = "telegraf")) := by
  constructor
  · intro pod
    unfold shouldAddTelegrafSidecar
    by_cases hc : podHasContainerName pod "telegraf"
    · simp [hc]
    · simp only [Bool.not_eq_true] at hc
      simp [hc, List.any_eq_true]
  · intro h pod name nspace hc
    have hgate : shouldAddTelegrafSidecar pod = false := by
      unfold shouldAddTelegrafSidecar
      simp [hc]
    unfold addSidecars
    rw [hgate]
    simp only [Bool.false_eq_true, if_false]
    split
    · unfold addIstioTelegrafSidecar
      split
      · rfl
      · rcases hni : newIstioContainer h "telegraf-istio" with e | container
        · rfl
        · have hname := newIstioContainer_name h "telegraf-istio" container hni
          simp only [addContainerAndSecret, List.countP_append, List.countP_cons,
            List.countP_nil, hname]
          norm_num
          decide
    · rfl

/-- Witness for C5's idempotence part: a pod that already carries a
container named "telegraf" (and a telegraf annotation) keeps exactly one
such container. -/
theorem primary_gate_iff_no_second_sidecar_witness :
    (addSidecars exHandler exPodWithTelegraf "p" "default").1.containers.countP
        (fun c => c.name = "telegraf") =
      exPodWithTelegraf.containers.countP (fun c => c.name = "telegraf") :=
  primary_gate_iff_no_second_sidecar.2 exHandler exPodWithTelegraf "p" "default"
    (by decide)

/-! ## C1 and C10: the secret ownership protocol -/

/-- A secret the code classifies as managed has the opaque type, exactly the
one expected data key (with a non-empty value), and — under annotation
enforcement — the managed-by marker. -/
theorem managed_shape (requireAnn : Bool) (s : K8sSecret)
    (h : isSecretManagedByTelegrafOperator requireAnn s = true) :
    s.type = "Opaque" ∧
    (∃ v, v ≠ "" ∧ s.data = [(TelegrafSecretDataKey, v)]) ∧
    (requireAnn = true →
      mapGetD s.annotations TelegrafSecretAnnotationKey = TelegrafSecretAnnotationValue) := by
  unfold isSecretManagedByTelegrafOperator at h
  split at h
  · exact absurd h (by simp)
  · split at h
    · exact absurd h (by simp)
    · split at h
      · exact absurd h (by simp)
      · rename_i h1 h2 h3
        push_neg at h1 h2 h3
        obtain ⟨hlen, hval⟩ := h2
        refine ⟨h1, ?_, h3⟩
        rcases hd : s.data with _ | ⟨⟨k, v⟩, rest⟩
        · rw [hd] at hlen
          simp at hlen
        · have hrest : rest = [] := by
            rw [hd] at hlen
            simpa using hlen
          subst hrest
          rw [hd] at hval
          by_cases hk : k = TelegrafSecretDataKey
          · subst hk
            refine ⟨v, ?_, hd ▸ rfl⟩
            intro hv
            subst hv
            simp [mapGetD, mapGet?] at hval
          · exfalso
            apply hval
            simp [mapGetD, mapGet?, hk]

/-- C1: for a pending secret, `createOrUpdateSecrets` first attempts
creation (an absent name is simply created); when the name exists, it
overwrites the stored object only if the code's managed check holds — which
implies the managed shape the claim lists (type, single expected key,
annotation under enforcement); and when that shape fails, it stops with a
conflict error, the store — in particular the existing secret — left
exactly as it was. -/
theorem createOrUpdateSecrets_ownership (requireAnn : Bool) (st : SecretStore)
    (secret : K8sSecret) (rest : List K8sSecret) :
    (storeGet st secret.nspace secret.name = none →
      createOrUpdateSecrets requireAnn st (secret :: rest) =
        createOrUpdateSecrets requireAnn (st ++ [secret]) rest) ∧
    (∀ ex, storeGet st secret.nspace secret.name = some ex →
      isSecretManagedByTelegrafOperator requireAnn ex = true →
      (ex.type = "Opaque" ∧ (∃ v, ex.data = [(TelegrafSecretDataKey, v)]) ∧
        (requireAnn = true →
          mapGetD ex.annotations TelegrafSecretAnnotationKey = TelegrafSecretAnnotationValue)) ∧
      createOrUpdateSecrets requireAnn st (secret :: rest) =
        createOrUpdateSecrets requireAnn
          (st.map (fun t =>
            if t.nspace = secret.nspace ∧ t.name = secret.name then secret else t))
          rest) ∧
    (∀ ex, storeGet st secret.nspace secret.name = some ex →
      ¬(ex.type = "Opaque" ∧ (∃ v, ex.data = [(TelegrafSecretDataKey, v)]) ∧
        (requireAnn = true →
          mapGetD ex.annotations TelegrafSecretAnnotationKey = TelegrafSecretAnnotationValue)) →
      ∃ msg, createOrUpdateSecrets requireAnn st (secret :: rest) =
        (st, some (.errorf msg))) := by
  refine ⟨?_, ?_, ?_⟩
  · intro h
    simp only [createOrUpdateSecrets, clientCreate, h]
  · intro ex hex hman
    obtain ⟨ht, ⟨v, _, hd⟩, ha⟩ := managed_shape requireAnn ex hman
    refine ⟨⟨ht, Exists.intro v hd, ha⟩, ?_⟩
    simp only [createOrUpdateSecrets, clientCreate, clientUpdate, hex, hman]
    simp
  · intro ex hex hnot
    have hman : isSecretManagedByTelegrafOperator requireAnn ex = false := by
      cases hb : isSecretManagedByTelegrafOperator requireAnn ex with
      | false => rfl
      | true =>
        obtain ⟨ht, ⟨v, _, hd⟩, ha⟩ := managed_shape requireAnn ex hb
        exact absurd ⟨ht, Exists.intro v hd, ha⟩ hnot
    refine ⟨"unable to update existing secret " ++ secret.name ++ " in namespace " ++
      secret.nspace ++ " as it is not managed by telegraf-operator", ?_⟩
    simp only [createOrUpdateSecrets, clientCreate, hex, hman]
    simp

/-- Witness for C1's conflict branch: an existing secret of a foreign type
under the pending secret's name makes `createOrUpdateSecrets` fail and
leaves the store untouched. -/
theorem createOrUpdateSecrets_ownership_witness :
    ∃ msg, createOrUpdateSecrets true [exForeignSecret] [exPendingSecret] =
      ([exForeignSecret], some (.errorf msg)) :=
  (createOrUpdateSecrets_ownership true [exForeignSecret] exPendingSecret []).2.2
    exForeignSecret (by decide) (fun hc => absurd hc.1 (by decide))

/-- C10: an existing secret holding exactly the expected key with an empty
value is not managed, so `createOrUpdateSecrets` refuses the update with a
conflict error and leaves the store unchanged. -/
theorem empty_value_secret_not_managed (requireAnn : Bool) (st : SecretStore)
    (secret : K8sSecret) (rest : List K8sSecret) (ex : K8sSecret)
    (hex : storeGet st secret.nspace secret.name = some ex)
    (hdata : ex.data = [(TelegrafSecretDataKey, "")]) :
    isSecretManagedByTelegrafOperator requireAnn ex = false ∧
    ∃ msg, createOrUpdateSecrets requireAnn st (secret :: rest) =
      (st, some (.errorf msg)) := by
  have hman : isSecretManagedByTelegrafOperator requireAnn ex = false := by
    unfold isSecretManagedByTelegrafOperator
    split
    · rfl
    · split
      · rfl
      · rename_i h2
        exfalso
        apply h2
        right
        simp [hdata, mapGetD, mapGet?]
  refine ⟨hman, "unable to update existing secret " ++ secret.name ++ " in namespace " ++
    secret.nspace ++ " as it is not managed by telegraf-operator", ?_⟩
  simp only [createOrUpdateSecrets, clientCreate, hex, hman]
  simp

/-- Witness for C10 on a concrete store: the empty-valued but otherwise
well-shaped secret is rejected. -/
theorem empty_value_secret_not_managed_witness :
    isSecretManagedByTelegrafOperator true exEmptyValueSecret = false ∧
    ∃ msg, createOrUpdateSecrets true [exEmptyValueSecret] [exPendingSecret] =
      ([exEmptyValueSecret], some (.errorf msg)) :=
  empty_value_secret_not_managed true [exEmptyValueSecret] exPendingSecret []
    exEmptyValueSecret (by decide) rfl

/-! ## C4: the reconciler updates exactly the changed secrets -/

/-- C4: in a reconciliation pass over a namespace that completes without an
error, a listed secret is written back with its freshly assembled text if
and only if that text differs byte-for-byte from the text stored under the
well-known data key; byte-identical secrets are left untouched. -/
theorem updateSecretsInNamespace_update_iff_changed
    (u : SecretsUpdater) (pods : String → Option Pod)
    (secrets : List K8sSecret) (updates : List (K8sSecret × String))
    (hrun : updateSecretsInNamespace u pods secrets = .ok updates)
    (s : K8sSecret) (pod : Pod) (conf : String)
    (hpod : pods (mapGetD s.labels TelegrafSecretLabelPod) = some pod)
    (hconf : u.assembleConf pod (mapGetD s.labels TelegrafSecretLabelClassName) = .ok conf) :
    (s, conf) ∈ updates ↔
      (s ∈ secrets ∧ mapGetD s.data TelegrafSecretDataKey ≠ conf) := by
  induction secrets generalizing updates with
  | nil =>
    simp only [updateSecretsInNamespace] at hrun
    injection hrun with h
    subst h
    simp
  | cons t rest ih =>
    unfold updateSecretsInNamespace at hrun
    by_cases hlab : mapGetD t.labels TelegrafSecretLabelPod = "" ∨
        mapGetD t.labels TelegrafSecretLabelClassName = ""
    · rw [if_pos hlab] at hrun
      exact absurd hrun (by simp)
    · rw [if_neg hlab] at hrun
      cases hpt : pods (mapGetD t.labels TelegrafSecretLabelPod) with
      | none => rw [hpt] at hrun; exact absurd hrun (by simp)
      | some podt =>
        simp only [hpt] at hrun
        cases hct : u.assembleConf podt (mapGetD t.labels TelegrafSecretLabelClassName) with
        | error e =>
          simp only [hct] at hrun
          exact absurd hrun (by simp)
        | ok conft =>
          simp only [hct] at hrun
          by_cases hdiff : mapGetD t.data TelegrafSecretDataKey ≠ conft
          · rw [if_pos hdiff] at hrun
            cases hrec : updateSecretsInNamespace u pods rest with
            | error e =>
              rw [hrec] at hrun
              exact absurd hrun (by simp [Except.map])
            | ok updates' =>
              rw [hrec] at hrun
              simp only [Except.map] at hrun
              injection hrun with h
              subst h
              by_cases hst : s = t
              · subst hst
                rw [hpt] at hpod
                injection hpod with hp
                subst hp
                rw [hct] at hconf
                injection hconf with hcf
                subst hcf
                simp [List.mem_cons, hdiff]
              · have hne : (s, conf) ≠ (t, conft) := by
                  intro hpair
                  exact hst (congrArg Prod.fst hpair)
                simp only [List.mem_cons, hne, false_or]
                rw [ih updates' hrec]
                simp [List.mem_cons, hst]
          · rw [if_neg hdiff] at hrun
            push_neg at hdiff
            rw [ih updates hrun]
            by_cases hst : s = t
            · subst hst
              rw [hpt] at hpod
              injection hpod with hp
              subst hp
              rw [hct] at hconf
              injection hconf with hcf
              subst hcf
              simp [hdiff]
            · simp [List.mem_cons, hst]

/-- Witness for C4 on a concrete pass: with one stale and one up-to-date
secret, exactly the stale one is written. -/
theorem updateSecretsInNamespace_update_iff_changed_witness :
    (exStaleSecret, "fresh") ∈ [(exStaleSecret, "fresh")] ↔
      (exStaleSecret ∈ [exStaleSecret, exFreshSecret] ∧
       mapGetD exStaleSecret.data TelegrafSecretDataKey ≠ "fresh") :=
  updateSecretsInNamespace_update_iff_changed exUpdater exPods
    [exStaleSecret, exFreshSecret] [(exStaleSecret, "fresh")] rfl
    exStaleSecret exPodWithTelegraf "fresh" rfl rfl


/-! ## C7 and C9: non-fatal assembly failures still admit the pod -/

/-- When the pod is not skipped and the decision engine reports a non-fatal
error, `Handle` answers with an advisory allow carrying the error's message
(no patch, no rejection) and performs no API write. -/
theorem Handle_allows_of_addSidecars_nonFatal
    (a : PodInjector) (st : SecretStore) (req : AdmRequest)
    (pod1 : Pod) (e : GoError) (msg : String)
    (hop : req.operation = .create)
    (hskip : a.sidecar.skip req.pod = false)
    (hname : req.pod.name ≠ "")
    (hadd : addSidecars a.sidecar req.pod req.pod.name req.nspace =
      (pod1, .error (.nonFatal e msg))) :
    Handle a st req = (.allowed msg, st) := by
  unfold Handle
  rw [hop]
  simp only [hskip, Bool.false_eq_true, if_false, hname, ite_false]
  rw [hadd]

/-- If the telegraf gate holds, the pod is not skipped. -/
theorem skip_false_of_gate (h : SidecarHandler) (pod : Pod)
    (hgate : shouldAddTelegrafSidecar pod = true) :
    h.skip pod = false := by
  unfold SidecarHandler.skip
  simp [hgate]

/-- If the telegraf gate holds and its sidecar construction fails, the
whole decision engine returns that failure with the pod as mutated so far. -/
theorem addSidecars_error_of_telegraf_error (h : SidecarHandler) (pod : Pod)
    (name nspace : String) (pod1 : Pod) (e : GoError)
    (hgate : shouldAddTelegrafSidecar pod = true)
    (hadd : addTelegrafSidecar h [] pod name nspace "telegraf" = (pod1, .error e)) :
    addSidecars h pod name nspace = (pod1, .error e) := by
  unfold addSidecars
  rw [hgate]
  simp only [if_true]
  rw [hadd]

/-- C9: with at least one scrape port and a metric-version annotation that
does not parse as an integer, assembly fails with the metric-version error
(no configuration text); the telegraf gate wraps it as non-fatal, so the
variant is skipped (the pod untouched) while the admission request is still
allowed. -/
theorem metric_version_invalid_nonfatal
    (h : SidecarHandler) (pod : Pod) (classData v : String)
    (hcd : h.classData (effectiveClassName h pod) = .ok classData)
    (hports : ports pod.annotations ≠ [])
    (hv : mapGet? pod.annotations TelegrafMetricVersion = some v)
    (hparse : goParseInt v = none) :
    assembleConf h pod (effectiveClassName h pod) =
      .error (.errorf ("value supplied for " ++ TelegrafMetricVersion ++
        " must be a number, " ++ v ++ " given")) ∧
    (∀ (result : List K8sSecret) (name nspace : String),
      addTelegrafSidecar h result pod name nspace "telegraf" =
        (pod, .error (.nonFatal
          (.errorf ("value supplied for " ++ TelegrafMetricVersion ++
            " must be a number, " ++ v ++ " given"))
          "telegraf-operator could not create sidecar container due to error in class data"))) ∧
    (∀ (a : PodInjector) (st : SecretStore) (req : AdmRequest),
      a.sidecar = h → req.operation = .create → req.pod = pod →
      pod.name ≠ "" → shouldAddTelegrafSidecar pod = true →
      Handle a st req =
        (.allowed "telegraf-operator could not create sidecar container due to error in class data",
         st)) := by
  have hpb : prometheusBlock pod =
      .error (.errorf ("value supplied for " ++ TelegrafMetricVersion ++
        " must be a number, " ++ v ++ " given")) := by
    unfold prometheusBlock
    rw [if_neg hports, hv]
    dsimp only
    rw [hparse]
    rfl
  have hac : assembleConf h pod (effectiveClassName h pod) =
      .error (.errorf ("value supplied for " ++ TelegrafMetricVersion ++
        " must be a number, " ++ v ++ " given")) := by
    unfold assembleConf assembleConfText assembleConfBase
    rw [hcd, hpb]
    rfl
  have hat : ∀ (result : List K8sSecret) (name nspace : String),
      addTelegrafSidecar h result pod name nspace "telegraf" =
        (pod, .error (.nonFatal
          (.errorf ("value supplied for " ++ TelegrafMetricVersion ++
            " must be a number, " ++ v ++ " given"))
          "telegraf-operator could not create sidecar container due to error in class data")) := by
    intro result name nspace
    unfold addTelegrafSidecar
    rw [hac]
    rfl
  refine ⟨hac, hat, ?_⟩
  intro a st req ha hop hpod hname hgate
  subst ha
  subst hpod
  exact Handle_allows_of_addSidecars_nonFatal a st req req.pod _ _ hop
    (skip_false_of_gate a.sidecar req.pod hgate) hname
    (addSidecars_error_of_telegraf_error a.sidecar req.pod req.pod.name req.nspace
      req.pod _ hgate (hat [] req.pod.name req.nspace))

/-- Witness for C9: the concrete pod with port "6060" and metric-version
"x1" is admitted with the advisory message, the store untouched. -/
theorem metric_version_invalid_nonfatal_witness :
    Handle exInjectorC9 [] exRequestC9 =
      (.allowed "telegraf-operator could not create sidecar container due to error in class data",
       []) :=
  (metric_version_invalid_nonfatal exHandler podC9 "" "x1" rfl (by decide) rfl rfl).2.2
    exInjectorC9 [] exRequestC9 rfl rfl rfl (by decide) (by decide)

/-- C7: when the fully assembled text fails the TOML parse, assembly
returns the structured configuration-invalid error (assembly is a total
function — no panic or abort exists in the model); on the admission path the
telegraf gate wraps it as non-fatal and the handler still allows the request
with an advisory message: no patch is produced (no sidecar added) and no
rejection occurs, the secret store left untouched. -/
theorem invalid_toml_nonfatal_allowed
    (h : SidecarHandler) (pod : Pod) (className t : String)
    (ht : assembleConfText h pod className = .ok t)
    (hparse : h.tomlParseOk t = false) :
    assembleConf h pod className =
      .error (.errorf "resulting Telegraf is not a valid file") ∧
    (className = effectiveClassName h pod →
      ∀ (a : PodInjector) (st : SecretStore) (req : AdmRequest),
        a.sidecar = h → req.operation = .create → req.pod = pod →
        pod.name ≠ "" → shouldAddTelegrafSidecar pod = true →
        Handle a st req =
          (.allowed "telegraf-operator could not create sidecar container due to error in class data",
           st)) := by
  have hac : assembleConf h pod className =
      .error (.errorf "resulting Telegraf is not a valid file") := by
    unfold assembleConf
    rw [ht]
    simp [hparse]
  refine ⟨hac, ?_⟩
  intro hcls a st req ha hop hpod hname hgate
  subst ha
  subst hpod
  subst hcls
  have hat : addTelegrafSidecar a.sidecar [] req.pod req.pod.name req.nspace "telegraf" =
      (req.pod, .error (.nonFatal (.errorf "resulting Telegraf is not a valid file")
        "telegraf-operator could not create sidecar container due to error in class data")) := by
    unfold addTelegrafSidecar
    rw [hac]
    rfl
  exact Handle_allows_of_addSidecars_nonFatal a st req req.pod _ _ hop
    (skip_false_of_gate a.sidecar req.pod hgate) hname
    (addSidecars_error_of_telegraf_error a.sidecar req.pod req.pod.name req.nspace
      req.pod _ hgate hat)

/-- Witness for C7: the pod carrying an invalid raw fragment, against the
parse-rejecting handler, is admitted with an advisory allow and the store
stays empty. -/
theorem invalid_toml_nonfatal_allowed_witness :
    Handle exInjectorC7 [] exRequestC7 =
      (.allowed "telegraf-operator could not create sidecar container due to error in class data",
       []) :=
  (invalid_toml_nonfatal_allowed hC7 podC7 (effectiveClassName hC7 podC7)
      "\nthis is not toml\n" rfl rfl).2 rfl
    exInjectorC7 [] exRequestC7 rfl rfl rfl (by decide) (by decide)

/-! ## C2: global-tag injection

Lemmas about the left-to-right replace-all scan, leading to the corrected
form of the global-tag claim: the tag text is substituted into *every*
occurrence of the header (`strings.ReplaceAll`), which coincides with the
spec's first-occurrence substitution exactly when the header occurs once. -/

/-- `listHasInfix` decides `List.IsInfix`. -/
theorem listHasInfix_correct (pat l : List Char) :
    listHasInfix pat l = true ↔ pat <:+: l := by
  induction l with
  | nil =>
    simp [listHasInfix, List.isEmpty_iff]
  | cons c rest ih =>
    simp [listHasInfix, List.infix_cons_iff, List.isPrefixOf_iff_prefix, ih]

/-- Skipping exactly the length of a leading block resumes the scan after
it. -/
theorem goRAAux_skip (pat rep : List Char) (l m : List Char) :
    goRAAux pat rep l.length (l ++ m) = goRAAux pat rep 0 m := by
  induction l with
  | nil => rfl
  | cons c l' ih =>
    simpa [goRAAux] using ih

/-- A text without any occurrence of the pattern is left unchanged by the
replace-all scan. -/
theorem goRAAux_no_occurrence (pat rep : List Char) (l : List Char)
    (h : listHasInfix pat l = false) : goRAAux pat rep 0 l = l := by
  induction l with
  | nil => rfl
  | cons c rest ih =>
    unfold listHasInfix at h
    simp only [Bool.or_eq_false_iff] at h
    obtain ⟨h1, h2⟩ := h
    unfold goRAAux
    rw [if_neg (fun hc => by rw [h1] at hc; exact Bool.false_ne_true hc.2)]
    rw [ih h2]

/-- A text without any occurrence of the pattern is left unchanged by the
first-occurrence substitution. -/
theorem replaceFirstList_no_occurrence (pat rep : List Char) (l : List Char)
    (h : listHasInfix pat l = false) : replaceFirstList pat rep l = l := by
  induction l with
  | nil => rfl
  | cons c rest ih =>
    unfold listHasInfix at h
    simp only [Bool.or_eq_false_iff] at h
    obtain ⟨h1, h2⟩ := h
    unfold replaceFirstList
    rw [if_neg (fun hc => by rw [h1] at hc; exact Bool.false_ne_true hc.2)]
    rw [ih h2]

/-- Two texts agreeing on their first `p.length` characters agree on
whether `p` is their prefix. -/
theorem isPrefixOf_congr_take (p x y : List Char)
    (hxy : x.take p.length = y.take p.length) :
    p.isPrefixOf x = p.isPrefixOf y := by
  cases hx : p.isPrefixOf x with
  | true =>
    have hp := List.isPrefixOf_iff_prefix.mp hx
    have hy : p <+: y := by
      rw [List.prefix_iff_eq_take] at hp ⊢
      rw [hxy] at hp
      exact hp
    exact (List.isPrefixOf_iff_prefix.mpr hy).symm
  | false =>
    cases hy : p.isPrefixOf y with
    | false => rfl
    | true =>
      have hp := List.isPrefixOf_iff_prefix.mp hy
      have hx' : p <+: x := by
        rw [List.prefix_iff_eq_take] at hp ⊢
        rw [hxy]
        exact hp
      rw [List.isPrefixOf_iff_prefix.mpr hx'] at hx
      exact absurd hx (by simp)

/-- Within the window that decides a match at a position strictly before the
seam, the list with the full pattern behind the seam and the list with the
pattern's last character removed agree. -/
theorem take_agree_at_seam (p : List Char) (hp : p ≠ []) (c : Char)
    (b' m : List Char) :
    (c :: (b' ++ (p ++ m))).take p.length =
      (c :: (b' ++ p.dropLast)).take p.length := by
  obtain ⟨n, hn⟩ : ∃ n, p.length = n + 1 := by
    cases p with
    | nil => exact absurd rfl hp
    | cons a l => exact ⟨l.length, by simp⟩
  rw [hn, List.take_succ_cons, List.take_succ_cons]
  congr 1
  rw [List.take_append_eq_append_take, List.take_append_eq_append_take,
    List.take_append_eq_append_take]
  have hjk : n - b'.length - p.length = 0 := by omega
  rw [hjk, List.take_zero, List.append_nil]
  rw [List.dropLast_eq_take, List.take_take, hn]
  have : n + 1 - 1 = n := rfl
  rw [this]
  have hj : n - b'.length ≤ n := Nat.sub_le _ _
  rw [min_eq_left hj]

/-- The scan step on a cons cell with nothing left to skip. -/
theorem goRAAux_cons_zero (pat rep : List Char) (c : Char) (rest : List Char) :
    goRAAux pat rep 0 (c :: rest) =
      if pat ≠ [] ∧ pat.isPrefixOf (c :: rest) then
        rep ++ goRAAux pat rep (pat.length - 1) rest
      else c :: goRAAux pat rep 0 rest := rfl

/-- The first-occurrence step on a cons cell. -/
theorem replaceFirstList_cons (pat rep : List Char) (c : Char) (rest : List Char) :
    replaceFirstList pat rep (c :: rest) =
      if pat ≠ [] ∧ pat.isPrefixOf (c :: rest) then
        rep ++ (c :: rest).drop pat.length
      else c :: replaceFirstList pat rep rest := rfl

/-- The replace-all scan on `b ++ pat ++ m` where no occurrence of `pat`
starts inside `b`: the seam occurrence is replaced and the scan resumes on
`m`. -/
theorem goRAAux_seam (pat rep : List Char) (hp : pat ≠ []) (b m : List Char)
    (hb : listHasInfix pat (b ++ pat.dropLast) = false) :
    goRAAux pat rep 0 (b ++ (pat ++ m)) = b ++ (rep ++ goRAAux pat rep 0 m) := by
  revert hb
  induction b with
  | nil =>
    intro _
    simp only [List.nil_append]
    obtain ⟨c, pt, hpat⟩ : ∃ c pt, pat = c :: pt := by
      cases pat with
      | nil => exact absurd rfl hp
      | cons a l => exact ⟨a, l, rfl⟩
    subst hpat
    have hpre : (c :: pt).isPrefixOf (c :: (pt ++ m)) = true :=
      List.isPrefixOf_iff_prefix.mpr (List.prefix_append (c :: pt) m)
    rw [List.cons_append, goRAAux_cons_zero]
    rw [if_pos ⟨by simp, hpre⟩]
    have hlen : (c :: pt).length - 1 = pt.length := by simp
    rw [hlen, goRAAux_skip (c :: pt) rep pt m]
  | cons c b' ih =>
    intro hb
    have hbTail : listHasInfix pat (b' ++ pat.dropLast) = false := by
      rw [List.cons_append] at hb
      unfold listHasInfix at hb
      simp only [Bool.or_eq_false_iff] at hb
      exact hb.2
    have h1 : pat.isPrefixOf (c :: (b' ++ (pat ++ m))) = false := by
      rw [isPrefixOf_congr_take pat _ _ (take_agree_at_seam pat hp c b' m)]
      cases hy : pat.isPrefixOf (c :: (b' ++ pat.dropLast)) with
      | false => rfl
      | true =>
        exfalso
        have htrue : listHasInfix pat (c :: (b' ++ pat.dropLast)) = true := by
          unfold listHasInfix
          rw [hy]
          simp
        rw [List.cons_append] at hb
        rw [htrue] at hb
        simp at hb
    rw [List.cons_append, List.cons_append, goRAAux_cons_zero]
    rw [if_neg (fun hc => by rw [h1] at hc; exact Bool.false_ne_true hc.2)]
    rw [ih hbTail]

/-- First-occurrence substitution on `b ++ pat ++ m` where no occurrence of
`pat` starts inside `b`: the seam occurrence is replaced and the rest kept
verbatim. -/
theorem replaceFirstList_seam (pat rep : List Char) (hp : pat ≠ []) (b m : List Char)
    (hb : listHasInfix pat (b ++ pat.dropLast) = false) :
    replaceFirstList pat rep (b ++ (pat ++ m)) = b ++ (rep ++ m) := by
  revert hb
  induction b with
  | nil =>
    intro _
    simp only [List.nil_append]
    obtain ⟨c, pt, hpat⟩ : ∃ c pt, pat = c :: pt := by
      cases pat with
      | nil => exact absurd rfl hp
      | cons a l => exact ⟨a, l, rfl⟩
    subst hpat
    have hpre : (c :: pt).isPrefixOf (c :: (pt ++ m)) = true :=
      List.isPrefixOf_iff_prefix.mpr (List.prefix_append (c :: pt) m)
    rw [List.cons_append, replaceFirstList_cons]
    rw [if_pos ⟨by simp, hpre⟩]
    rw [← List.cons_append, List.drop_left]
  | cons c b' ih =>
    intro hb
    have hbTail : listHasInfix pat (b' ++ pat.dropLast) = false := by
      rw [List.cons_append] at hb
      unfold listHasInfix at hb
      simp only [Bool.or_eq_false_iff] at hb
      exact hb.2
    have h1 : pat.isPrefixOf (c :: (b' ++ (pat ++ m))) = false := by
      rw [isPrefixOf_congr_take pat _ _ (take_agree_at_seam pat hp c b' m)]
      cases hy : pat.isPrefixOf (c :: (b' ++ pat.dropLast)) with
      | false => rfl
      | true =>
        exfalso
        have htrue : listHasInfix pat (c :: (b' ++ pat.dropLast)) = true := by
          unfold listHasInfix
          rw [hy]
          simp
        rw [List.cons_append] at hb
        rw [htrue] at hb
        simp at hb
    rw [List.cons_append, List.cons_append, replaceFirstList_cons]
    rw [if_neg (fun hc => by rw [h1] at hc; exact Bool.false_ne_true hc.2)]
    rw [ih hbTail]

/-- C2 counterexample: on a pod whose raw-input fragment and class text
each contain a `[global_tags]` header, the pre-injection text holds the
header twice; `assembleConf` substitutes the tag lines into *both*
occurrences (`strings.ReplaceAll`), so its output differs from the
first-occurrence-only substitution the claim describes. -/
theorem globalTags_first_occurrence_counterexample :
    assembleConfBase hC2 podC2 "[global_tags]\n" =
      .ok "\n[global_tags]\n\n[global_tags]\n" ∧
    assembleConfText hC2 podC2 "cls" =
      .ok "\n[global_tags]\n  env = \"dev\"\n\n[global_tags]\n  env = \"dev\"\n" ∧
    replaceFirst "\n[global_tags]\n\n[global_tags]\n" "[global_tags]\n"
        (globalTagsText (globalTagsOf podC2.annotations)) =
      "\n[global_tags]\n  env = \"dev\"\n\n[global_tags]\n" ∧
    ("\n[global_tags]\n  env = \"dev\"\n\n[global_tags]\n  env = \"dev\"\n" : String) ≠
      "\n[global_tags]\n  env = \"dev\"\n\n[global_tags]\n" :=
  ⟨rfl, rfl, rfl, by decide⟩

/-- C2 (amended): with at least one global-tag-literal annotation, the
assembled text is the base text with the tag block applied; the tag list
carries one pair per such annotation with the keys sorted; when the header
does not occur (not even straddling the appended seam) a new
`[global_tags]` section holding the lines is appended at the end; when the
header occurs exactly once the lines are injected at the top of that
occurrence — the spec's first-occurrence substitution; and in general the
substitution rewrites every occurrence of the header
(`strings.ReplaceAll`). -/
theorem assembleConf_globalTags_injection
    (h : SidecarHandler) (pod : Pod) (className classData base : String)
    (hcd : h.classData className = .ok classData)
    (hbase : assembleConfBase h pod classData = .ok base)
    (htags : globalTagsOf pod.annotations ≠ []) :
    assembleConfText h pod className = .ok (applyGlobalTags pod.annotations base) ∧
    (globalTagsOf pod.annotations).Sorted (fun a b => goStrLe a.1 b.1) ∧
    (globalTagsOf pod.annotations).Perm
      ((pod.annotations.filter
          (fun kv => goHasPrefix kv.1 TelegrafGlobalTagLiteralPrefix)).map
        (fun kv => (goTrimPrefix kv.1 TelegrafGlobalTagLiteralPrefix, kv.2))) ∧
    (listHasInfix "[global_tags]\n".data
        ((base ++ "\n").data ++ "[global_tags]\n".data.dropLast) = false →
      applyGlobalTags pod.annotations base =
        base ++ "\n" ++ globalTagsText (globalTagsOf pod.annotations)) ∧
    (∀ a b : List Char,
      base.data = a ++ ("[global_tags]\n".data ++ b) →
      listHasInfix "[global_tags]\n".data (a ++ "[global_tags]\n".data.dropLast) = false →
      listHasInfix "[global_tags]\n".data b = false →
      applyGlobalTags pod.annotations base =
        ⟨a ++ ((globalTagsText (globalTagsOf pod.annotations)).data ++ b)⟩ ∧
      applyGlobalTags pod.annotations base =
        replaceFirst base "[global_tags]\n" (globalTagsText (globalTagsOf pod.annotations))) ∧
    (goContains base "[global_tags]\n" = true →
      applyGlobalTags pod.annotations base =
        goReplaceAll base "[global_tags]\n" (globalTagsText (globalTagsOf pod.annotations))) := by
  haveI instTot : IsTotal (String × String) (fun a b => goStrLe a.1 b.1) :=
    ⟨fun a b => le_total a.1.data b.1.data⟩
  haveI instTrans : IsTrans (String × String) (fun a b => goStrLe a.1 b.1) :=
    ⟨fun _ _ _ h1 h2 => le_trans h1 h2⟩
  have hdata : ∀ x y : String, (x ++ y).data = x.data ++ y.data := fun _ _ => rfl
  have hlenpos : (globalTagsOf pod.annotations).length > 0 :=
    List.length_pos.mpr htags
  have hpat : ("[global_tags]\n".data : List Char) ≠ [] := by decide
  refine ⟨?_, ?_, ?_, ?_, ?_, ?_⟩
  · unfold assembleConfText
    rw [hcd]
    dsimp only
    rw [hbase]
    rfl
  · exact List.sorted_insertionSort _ _
  · exact List.perm_insertionSort _ _
  · intro hstrad
    have hnc : goContains base "[global_tags]\n" = false := by
      cases hv : goContains base "[global_tags]\n" with
      | false => rfl
      | true =>
        exfalso
        have hinf : "[global_tags]\n".data <:+: base.data :=
          (listHasInfix_correct _ _).mp hv
        have hext : "[global_tags]\n".data <:+:
            (base ++ "\n").data ++ "[global_tags]\n".data.dropLast := by
          refine hinf.trans ?_
          rw [hdata]
          exact (List.prefix_append base.data _).isInfix.trans
            ((List.prefix_append _ _).isInfix)
        rw [← listHasInfix_correct] at hext
        rw [hext] at hstrad
        simp at hstrad
    unfold applyGlobalTags
    rw [if_pos hlenpos, hnc]
    simp only [Bool.not_false, if_true]
    unfold goReplaceAll goReplaceAllList
    have hstep : (base ++ "\n" ++ "[global_tags]\n").data =
        (base ++ "\n").data ++ ("[global_tags]\n".data ++ []) := by
      rw [hdata, List.append_nil]
    rw [hstep, goRAAux_seam _ _ hpat _ _ hstrad]
    show String.mk _ = _
    rw [show goRAAux "[global_tags]\n".data
        (globalTagsText (globalTagsOf pod.annotations)).data 0 [] = [] from rfl]
    rw [List.append_nil]
    rfl
  · intro a b hsplit hna hnb
    have hc : goContains base "[global_tags]\n" = true := by
      rw [goContains, hsplit]
      refine (listHasInfix_correct _ _).mpr ⟨a, b, ?_⟩
      rw [List.append_assoc]
    have hrw : goReplaceAllList "[global_tags]\n".data
        (globalTagsText (globalTagsOf pod.annotations)).data base.data =
        a ++ ((globalTagsText (globalTagsOf pod.annotations)).data ++ b) := by
      unfold goReplaceAllList
      rw [hsplit, goRAAux_seam _ _ hpat _ _ hna,
        goRAAux_no_occurrence _ _ _ hnb]
    have happly : applyGlobalTags pod.annotations base =
        ⟨a ++ ((globalTagsText (globalTagsOf pod.annotations)).data ++ b)⟩ := by
      unfold applyGlobalTags
      rw [if_pos hlenpos, hc]
      simp only [Bool.not_true, Bool.false_eq_true, if_false]
      unfold goReplaceAll
      rw [hrw]
    refine ⟨happly, happly.trans ?_⟩
    unfold replaceFirst
    rw [hsplit, replaceFirstList_seam _ _ hpat _ _ hna]
  · intro hc
    unfold applyGlobalTags
    rw [if_pos hlenpos, hc]
    simp only [Bool.not_true, Bool.false_eq_true, if_false]

/-- Witness for the amended C2 on a concrete pod whose assembled base text
holds the header exactly once: the tag lines land at the top of that
occurrence, agreeing with first-occurrence substitution there. -/
theorem assembleConf_globalTags_injection_witness :
    applyGlobalTags podC2single.annotations "\n[global_tags]\n" =
      ⟨['\n'] ++ ((globalTagsText (globalTagsOf podC2single.annotations)).data ++ [])⟩ ∧
    applyGlobalTags podC2single.annotations "\n[global_tags]\n" =
      replaceFirst "\n[global_tags]\n" "[global_tags]\n"
        (globalTagsText (globalTagsOf podC2single.annotations)) :=
  (assembleConf_globalTags_injection hC2 podC2single "cls" "[global_tags]\n"
      "\n[global_tags]\n" rfl rfl (by decide)).2.2.2.2.1 ['\n'] []
    (by decide) (by decide) (by decide)
